import Mathlib

/-!
Verification of the language-model runner (app-server/src/language_model/runner.rs).

Rust strings are embedded as lists of characters.  The iterator pipeline
`model.split(":")` is embedded as splitSep, and itertools
`.join(":")` as joinSep.  Fallible operations returning anyhow
Result are embedded as Except over a structured error type; f64 money
values are embedded as rationals.
-/

namespace Lmnr

/-- Rust str / String embedded as a list of characters. -/
abbrev Str := List Char

/-- Embeds Rust str::split(sep): splits a string at every occurrence of
the separator, keeping empty components, so the result always has one more
component than the number of separators (splitting the empty string gives
one empty component, as in Rust). -/
def splitSep (sep : Char) : Str → List Str
  | [] => [[]]
  | c :: rest =>
    match splitSep sep rest with
    | [] => [[c]]
    | h :: t => if c = sep then [] :: h :: t else (c :: h) :: t

/-- Embeds itertools join(sep) over an iterator of string components:
interleaves the separator between components; empty input joins to the
empty string. -/
def joinSep (sep : Char) : List Str → Str
  | [] => []
  | [x] => x
  | x :: y :: ys => x ++ sep :: joinSep sep (y :: ys)

theorem splitSep_ne_nil (sep : Char) (s : Str) : splitSep sep s ≠ [] := by
  cases s with
  | nil => simp [splitSep]
  | cons c rest =>
    simp only [splitSep]
    cases splitSep sep rest with
    | nil => simp
    | cons h t => by_cases hc : c = sep <;> simp [hc]

theorem splitSep_no_sep (sep : Char) (s : Str) (h : sep ∉ s) : splitSep sep s = [s] := by
  induction s with
  | nil => rfl
  | cons c rest ih =>
    simp only [List.mem_cons, not_or] at h
    have hc : ¬ c = sep := fun hcs => h.1 hcs.symm
    simp [splitSep, ih h.2, hc]

theorem splitSep_append (sep : Char) (tag rest : Str) (h : sep ∉ tag) :
    splitSep sep (tag ++ sep :: rest) = tag :: splitSep sep rest := by
  induction tag with
  | nil =>
    simp only [List.nil_append, splitSep]
    cases hr : splitSep sep rest with
    | nil => exact absurd hr (splitSep_ne_nil sep rest)
    | cons h t => simp
  | cons c t ih =>
    simp only [List.mem_cons, not_or] at h
    have hc : ¬ c = sep := fun hcs => h.1 hcs.symm
    simp [List.cons_append, splitSep, List.append_eq, ih h.2, hc]

theorem joinSep_splitSep (sep : Char) (s : Str) : joinSep sep (splitSep sep s) = s := by
  induction s with
  | nil => rfl
  | cons c rest ih =>
    cases hr : splitSep sep rest with
    | nil => exact absurd hr (splitSep_ne_nil sep rest)
    | cons hd tl =>
      rw [hr] at ih
      simp only [splitSep, hr]
      by_cases hc : c = sep
      · rw [if_pos hc]
        have hjoin : joinSep sep ([] :: hd :: tl) = [] ++ sep :: joinSep sep (hd :: tl) := rfl
        rw [hjoin, ih, hc]
        rfl
      · rw [if_neg hc]
        cases tl with
        | nil =>
          simp only [joinSep] at ih ⊢
          rw [ih]
        | cons b bs =>
          simp only [joinSep] at ih ⊢
          rw [← ih, List.cons_append]

/-- Structured embedding of the anyhow error values produced by runner.rs:
the message built at lines 214 and 217 maps to invalidFormat,
the message of LanguageModelProviderName::from_str maps to unknownProvider,
and the message of LanguageModelProviderName::api_key maps to missingEnvVar. -/
inductive RunnerError where
  | invalidFormat
  | unknownProvider (tag : Str)
  | missingEnvVar (name : Str)
deriving DecidableEq

/-- Modelled from the spec: providers::utils::get_provider, whose source file
is absent from this fragment.  Per the spec, the provider tag is everything
before the first separator, and an identifier containing no separator has no
provider tag. -/
def get_provider (model : Str) : Option Str :=
  match splitSep ':' model with
  | p :: _ :: _ => some p
  | _ => none

/-- Embeds the model-identifier parsing phase of
LanguageModelRunner::chat_completion (runner.rs lines 214-218): call
get_provider (an error gets the context message of line 214), recompute the
model name by splitting on the separator, skipping the tag and rejoining with
the separator, and reject an empty model name. -/
def split_model (model : Str) : Except RunnerError (Str × Str) :=
  match get_provider model with
  | none => .error .invalidFormat
  | some provider =>
    if joinSep ':' ((splitSep ':' model).drop 1) = [] then .error .invalidFormat
    else .ok (provider, joinSep ':' ((splitSep ':' model).drop 1))

/-- Embeds the enum LanguageModelProviderName of runner.rs. -/
inductive LanguageModelProviderName where
  | anthropic
  | mistral
  | openai
  | openaiAzure
  | gemini
  | groq
  | bedrock
deriving DecidableEq

/-- Embeds LanguageModelProviderName::from_str (runner.rs lines 134-145):
an exact, case-sensitive match against the seven canonical tags; any other
string produces the invalid-provider error carrying that string. -/
def LanguageModelProviderName.from_str (s : Str) : Except RunnerError LanguageModelProviderName :=
  if s = "anthropic".toList then .ok .anthropic
  else if s = "mistral".toList then .ok .mistral
  else if s = "openai".toList then .ok .openai
  else if s = "openai-azure".toList then .ok .openaiAzure
  else if s = "gemini".toList then .ok .gemini
  else if s = "groq".toList then .ok .groq
  else if s = "bedrock".toList then .ok .bedrock
  else .error (.unknownProvider s)

/-- The tag table of LanguageModelProviderName::from_str, used to state that
the tag-to-identity map is exactly these seven pairs. -/
def provider_tags : List (Str × LanguageModelProviderName) :=
  [("anthropic".toList, .anthropic),
   ("mistral".toList, .mistral),
   ("openai".toList, .openai),
   ("openai-azure".toList, .openaiAzure),
   ("gemini".toList, .gemini),
   ("groq".toList, .groq),
   ("bedrock".toList, .bedrock)]

/-- Modelled from the spec: the constant AWS_SECRET_ACCESS_KEY exported by
providers::anthropic_bedrock, whose source file is absent from this fragment;
the spec names it the Bedrock secret-access-key environment variable. -/
def AWS_SECRET_ACCESS_KEY : Str := "AWS_SECRET_ACCESS_KEY".toList

/-- Modelled from the spec: the Bedrock region environment variable constant
exported by providers::anthropic_bedrock. -/
def AWS_REGION : Str := "AWS_REGION".toList

/-- Modelled from the spec: the Bedrock access-key-id environment variable
constant exported by providers::anthropic_bedrock. -/
def AWS_ACCESS_KEY_ID : Str := "AWS_ACCESS_KEY_ID".toList

/-- Modelled from the spec: the Azure resource-id environment variable
constant exported by providers::openai_azure. -/
def OPENAI_AZURE_RESOURCE_ID : Str := "OPENAI_AZURE_RESOURCE_ID".toList

/-- Modelled from the spec: the Azure deployment-name environment variable
constant exported by providers::openai_azure. -/
def OPENAI_AZURE_DEPLOYMENT_NAME : Str := "OPENAI_AZURE_DEPLOYMENT_NAME".toList

/-- Embeds LanguageModelProviderName::api_key_name (runner.rs lines 154-164). -/
def LanguageModelProviderName.api_key_name : LanguageModelProviderName → Str
  | .anthropic => "ANTHROPIC_API_KEY".toList
  | .mistral => "MISTRAL_API_KEY".toList
  | .openai => "OPENAI_API_KEY".toList
  | .openaiAzure => "AZURE_API_KEY".toList
  | .gemini => "GEMINI_API_KEY".toList
  | .groq => "GROQ_API_KEY".toList
  | .bedrock => AWS_SECRET_ACCESS_KEY

/-- Embeds LanguageModelProviderName::api_key (runner.rs lines 147-152);
the Rust HashMap of environment variables is embedded as an association
list queried with lookup. -/
def LanguageModelProviderName.api_key (p : LanguageModelProviderName)
    (env : List (Str × Str)) : Except RunnerError Str :=
  match env.lookup p.api_key_name with
  | some v => .ok v
  | none => .error (.missingEnvVar p.api_key_name)

/-- Embeds LanguageModelProviderName::required_env_vars (runner.rs lines
166-179); the Rust HashSet is embedded as a Finset. -/
def LanguageModelProviderName.required_env_vars (p : LanguageModelProviderName) : Finset Str :=
  if p = .bedrock then
    insert AWS_REGION (insert AWS_ACCESS_KEY_ID {p.api_key_name})
  else if p = .openaiAzure then
    insert OPENAI_AZURE_RESOURCE_ID (insert OPENAI_AZURE_DEPLOYMENT_NAME {p.api_key_name})
  else
    {p.api_key_name}

/-- Outcome of the dispatch phase of LanguageModelRunner::chat_completion:
either an error value returned to the caller, a panic (the unwrap at
runner.rs line 221 on a missing executor), or the selected executor together
with the resolved identity and split model name handed to delegation. -/
inductive LookupResult (α : Type) where
  | err (e : RunnerError)
  | panic
  | ok (executor : α) (provider : LanguageModelProviderName) (model_name : Str)
deriving DecidableEq

/-- Embeds the dispatch phase of LanguageModelRunner::chat_completion
(runner.rs lines 214-221): parse the identifier, resolve the provider
identity, then look the executor up in the runner map; the unwrap on a
missing entry is a panic, not an error value.  The Rust HashMap of
executors is embedded as a function to Option. -/
def select_executor {α : Type} (models : LanguageModelProviderName → Option α)
    (model : Str) : LookupResult α :=
  match split_model model with
  | .error e => .err e
  | .ok (provider, model_name) =>
    match LanguageModelProviderName.from_str provider with
    | .error e => .err e
    | .ok provider_name =>
      match models provider_name with
      | none => .panic
      | some executor => .ok executor provider_name model_name

/-- Embeds the struct InputTokens of traces::spans used at runner.rs
lines 80-84; Rust i64 token counts are embedded as integers. -/
structure InputTokens where
  regular_input_tokens : ℤ
  cache_write_tokens : ℤ
  cache_read_tokens : ℤ

/-- Per-token input rates of a pricing row; Rust f64 rates are embedded as
rationals. -/
structure InputRates where
  input_rate : ℚ
  cache_write_rate : ℚ
  cache_read_rate : ℚ

/-- The pricing source consulted by the cost helpers in
language_model::costs: input and output rates are looked up independently
for a (provider, model) pair and each may be absent. -/
structure PricingSource where
  inputRates : Str → Str → Option InputRates
  outputRate : Str → Str → Option ℚ

/-- Modelled from the spec: costs::estimate_input_cost, whose source file is
absent from this fragment.  Per the spec it looks up a per-token input rate
for the (provider, model) pair, multiplies each token category by its own
rate and sums, and is absent when no pricing row exists. -/
def costs_estimate_input_cost (P : PricingSource) (provider model : Str)
    (tokens : InputTokens) : Option ℚ :=
  (P.inputRates provider model).map fun r =>
    (tokens.regular_input_tokens : ℚ) * r.input_rate
      + (tokens.cache_write_tokens : ℚ) * r.cache_write_rate
      + (tokens.cache_read_tokens : ℚ) * r.cache_read_rate

/-- Modelled from the spec: costs::estimate_output_cost, whose source file is
absent from this fragment; the symmetric lookup for the output rate. -/
def costs_estimate_output_cost (P : PricingSource) (provider model : Str)
    (output_tokens : ℤ) : Option ℚ :=
  (P.outputRate provider model).map fun r => (output_tokens : ℚ) * r

/-- Embeds the default method EstimateCost::estimate_input_cost (runner.rs
lines 68-87): wraps the u32 input-token count into an InputTokens with zero
cache-write and cache-read tokens and delegates to costs::estimate_input_cost
under the executor's pricing-table key db_provider_name. -/
def estimate_input_cost (P : PricingSource) (db_provider_name model : Str)
    (input_tokens : ℕ) : Option ℚ :=
  costs_estimate_input_cost P db_provider_name model
    ⟨(input_tokens : ℤ), 0, 0⟩

/-- Embeds the default method EstimateCost::estimate_output_cost (runner.rs
lines 89-104). -/
def estimate_output_cost (P : PricingSource) (db_provider_name model : Str)
    (output_tokens : ℕ) : Option ℚ :=
  costs_estimate_output_cost P db_provider_name model (output_tokens : ℤ)

/-- Embeds the default method EstimateCost::estimate_cost (runner.rs lines
106-130).  The first component is the returned Option; the second records
whether the missing-price warning of lines 118-122 was logged (the or_else
closure runs, and logs, exactly when the input estimate is absent; the
question-mark operator then propagates the absence, and an absent output
estimate is propagated without logging). -/
def estimate_cost (P : PricingSource) (db_provider_name model : Str)
    (input_tokens output_tokens : ℕ) : Option ℚ × Bool :=
  match estimate_input_cost P db_provider_name model input_tokens with
  | none => (none, true)
  | some input_cost =>
    match estimate_output_cost P db_provider_name model output_tokens with
    | none => (none, false)
    | some output_cost => (some (input_cost + output_cost), false)

/-- One emission of a streaming backend: a partial-output chunk, the final
summary closing the stream, or a mid-stream provider error. -/
inductive StreamEvent (χ ρ ε : Type) where
  | chunk (c : χ)
  | done (r : ρ)
  | fail (e : ε)

/-- Modelled from the spec: the streaming mode of
ExecuteChatCompletion::chat_completion, of which only the trait signature
(runner.rs lines 48-62) appears in this fragment.  The backend's emissions
are consumed in order; each chunk is appended to the sink as it arrives, the
final summary ends the call with a successful result, and a mid-stream error
ends the call with an error result instead of a further chunk.  The result
pairs the chunks delivered to the sink with the call outcome (none if the
event sequence is exhausted without a terminal event). -/
def deliver_stream {χ ρ ε : Type} (sink : List χ) :
    List (StreamEvent χ ρ ε) → List χ × Option (Except ε ρ)
  | [] => (sink, none)
  | .chunk c :: rest => deliver_stream (sink ++ [c]) rest
  | .done r :: _ => (sink, some (.ok r))
  | .fail e :: _ => (sink, some (.error e))

/-- C1: for every model identifier of the form tag-separator-model with a
non-empty model name, the parsing phase of
LanguageModelRunner::chat_completion splits on the first separator into the
provider tag and the model name, reproducing the model name verbatim even
when it contains further separator characters. -/
theorem split_model_first_sep (tag model : Str) (htag : ':' ∉ tag)
    (hmodel : model ≠ []) :
    split_model (tag ++ ':' :: model) = Except.ok (tag, model) := by
  obtain ⟨hd, tl, hr⟩ := List.exists_cons_of_ne_nil (splitSep_ne_nil ':' model)
  have hs : splitSep ':' (tag ++ ':' :: model) = tag :: hd :: tl := by
    rw [splitSep_append ':' tag model htag, hr]
  have hjoin : joinSep ':' (hd :: tl) = model := by
    rw [← hr, joinSep_splitSep]
  simp [split_model, get_provider, hs, hjoin, hmodel]

theorem split_model_first_sep_witness :
    split_model ("bedrock".toList ++ ':' :: "anthropic.claude-3:v1".toList)
      = Except.ok ("bedrock".toList, "anthropic.claude-3:v1".toList) :=
  split_model_first_sep "bedrock".toList "anthropic.claude-3:v1".toList
    (by decide) (by decide)

/-- C2 counterexample: the identifier with provider tag openai and a
model-name portion consisting of a single space is not rejected: no trimming
is applied, so parsing succeeds and the call reaches the registered
executor. -/
theorem whitespace_model_reaches_executor :
    select_executor (fun _ => some (0 : ℕ)) "openai: ".toList
      = LookupResult.ok 0 LanguageModelProviderName.openai " ".toList := by
  rfl

/-- C2 amended: the parsing phase of LanguageModelRunner::chat_completion
fails with the invalid-format error, before any provider identity resolution
or executor lookup (for every executor map), for every identifier containing
no separator and for every identifier whose model-name portion is the empty
string; no trimming of the model-name portion is performed. -/
theorem split_model_invalid_cases {α : Type}
    (models : LanguageModelProviderName → Option α) :
    (∀ s : Str, ':' ∉ s →
        select_executor models s = LookupResult.err RunnerError.invalidFormat) ∧
    (∀ tag : Str, ':' ∉ tag →
        select_executor models (tag ++ [':'])
          = LookupResult.err RunnerError.invalidFormat) := by
  constructor
  · intro s hs
    have h1 : splitSep ':' s = [s] := splitSep_no_sep ':' s hs
    simp [select_executor, split_model, get_provider, h1]
  · intro tag htag
    have h1 : splitSep ':' (tag ++ [':']) = [tag, []] := by
      simpa [splitSep] using splitSep_append ':' tag [] htag
    simp [select_executor, split_model, get_provider, h1, joinSep]

theorem split_model_invalid_cases_witness :
    select_executor (fun _ => some (0 : ℕ)) "openai".toList
        = LookupResult.err RunnerError.invalidFormat ∧
    select_executor (fun _ => some (0 : ℕ)) ("openai".toList ++ [':'])
        = LookupResult.err RunnerError.invalidFormat :=
  ⟨(split_model_invalid_cases (fun _ => some 0)).1 "openai".toList (by decide),
   (split_model_invalid_cases (fun _ => some 0)).2 "openai".toList (by decide)⟩

/-- C3: whenever the input-cost estimate is absent, EstimateCost::estimate_cost
returns the absent estimate and logs the missing-price warning, whatever the
output-cost lookup would yield; the estimate is never partially reported. -/
theorem estimate_cost_missing_input (P : PricingSource) (name model : Str)
    (itok otok : ℕ) (h : estimate_input_cost P name model itok = none) :
    estimate_cost P name model itok otok = (none, true) := by
  simp [estimate_cost, h]

theorem estimate_cost_missing_input_witness :
    estimate_cost ⟨fun _ _ => none, fun _ _ => some 1⟩
        "openai".toList "gpt-4".toList 100 50 = (none, true) :=
  estimate_cost_missing_input _ _ _ 100 50 rfl

/-- C10: whenever the input-cost estimate succeeds but the output-cost
estimate is absent, EstimateCost::estimate_cost returns the absent estimate
without logging the missing-price warning. -/
theorem estimate_cost_missing_output (P : PricingSource) (name model : Str)
    (itok otok : ℕ) (c : ℚ)
    (hin : estimate_input_cost P name model itok = some c)
    (hout : estimate_output_cost P name model otok = none) :
    estimate_cost P name model itok otok = (none, false) := by
  simp [estimate_cost, hin, hout]

theorem estimate_cost_missing_output_witness :
    estimate_cost ⟨fun _ _ => some ⟨1, 0, 0⟩, fun _ _ => none⟩
        "openai".toList "gpt-4".toList 100 50 = (none, false) :=
  estimate_cost_missing_output _ _ _ 100 50 ((100 : ℤ) * 1 + 0 * 0 + 0 * 0)
    rfl rfl

/-- C4: LanguageModelProviderName::from_str succeeds exactly on the seven
canonical case-sensitive tags of the tag table, with a distinct identity for
each tag (the tag-to-identity map is injective since the identities in the
table are pairwise distinct), and every other string fails with the
unknown-provider error carrying that string, never defaulting. -/
theorem from_str_exact_tags :
    (∀ (s : Str) (p : LanguageModelProviderName),
        LanguageModelProviderName.from_str s = Except.ok p ↔ (s, p) ∈ provider_tags) ∧
    (∀ s : Str, s ∉ provider_tags.map Prod.fst →
        LanguageModelProviderName.from_str s
          = Except.error (RunnerError.unknownProvider s)) ∧
    (provider_tags.map Prod.snd).Nodup := by
  refine ⟨?_, ?_, by decide⟩
  · intro s p
    constructor
    · intro h
      unfold LanguageModelProviderName.from_str at h
      split_ifs at h with h1 h2 h3 h4 h5 h6 h7 <;> simp_all [provider_tags]
    · intro h
      simp only [provider_tags, List.mem_cons, List.not_mem_nil, or_false,
        Prod.mk.injEq] at h
      rcases h with ⟨hs, hp⟩ | ⟨hs, hp⟩ | ⟨hs, hp⟩ | ⟨hs, hp⟩ | ⟨hs, hp⟩ |
        ⟨hs, hp⟩ | ⟨hs, hp⟩ <;> subst hs <;> subst hp <;> rfl
  · intro s hs
    simp only [provider_tags, List.map_cons, List.map_nil, List.mem_cons,
      List.not_mem_nil, or_false, not_or] at hs
    unfold LanguageModelProviderName.from_str
    split_ifs with h1 h2 h3 h4 h5 h6 h7 <;> simp_all

theorem from_str_exact_tags_witness :
    LanguageModelProviderName.from_str "made-up".toList
        = Except.error (RunnerError.unknownProvider "made-up".toList) ∧
    LanguageModelProviderName.from_str "groq".toList
        = Except.ok LanguageModelProviderName.groq :=
  ⟨from_str_exact_tags.2.1 "made-up".toList (by decide),
   (from_str_exact_tags.1 "groq".toList LanguageModelProviderName.groq).mpr
     (by decide)⟩

/-- C5: required_env_vars always contains the provider's primary API-key
variable name; for Bedrock and OpenAIAzure the returned set has at least 3
elements, and for each of the other five providers exactly 1. -/
theorem required_env_vars_spec :
    (∀ p : LanguageModelProviderName, p.api_key_name ∈ p.required_env_vars) ∧
    3 ≤ LanguageModelProviderName.bedrock.required_env_vars.card ∧
    3 ≤ LanguageModelProviderName.openaiAzure.required_env_vars.card ∧
    LanguageModelProviderName.anthropic.required_env_vars.card = 1 ∧
    LanguageModelProviderName.mistral.required_env_vars.card = 1 ∧
    LanguageModelProviderName.openai.required_env_vars.card = 1 ∧
    LanguageModelProviderName.gemini.required_env_vars.card = 1 ∧
    LanguageModelProviderName.groq.required_env_vars.card = 1 := by
  refine ⟨fun p => ?_, ?_, ?_, ?_, ?_, ?_, ?_, ?_⟩
  · cases p <;> decide
  all_goals decide

/-- C6: with full pricing available for the pair, EstimateCost::estimate_cost
with 100 regular input tokens and 50 output tokens returns exactly the sum of
100 times the input rate and 50 times the output rate, with no warning. -/
theorem estimate_cost_full_pricing (P : PricingSource) (name model : Str)
    (r : InputRates) (r_out : ℚ)
    (hin : P.inputRates name model = some r)
    (hout : P.outputRate name model = some r_out) :
    estimate_cost P name model 100 50
      = (some (100 * r.input_rate + 50 * r_out), false) := by
  simp only [estimate_cost, estimate_input_cost, estimate_output_cost,
    costs_estimate_input_cost, costs_estimate_output_cost, hin, hout,
    Option.map_some]
  norm_num

theorem estimate_cost_full_pricing_witness :
    estimate_cost ⟨fun _ _ => some ⟨3, 1, 1⟩, fun _ _ => some 7⟩
        "openai".toList "gpt-4".toList 100 50
      = (some (100 * 3 + 50 * 7), false) :=
  estimate_cost_full_pricing _ _ _ ⟨3, 1, 1⟩ 7 rfl rfl

/-- C7: LanguageModelProviderName::api_key returns exactly the value bound to
the provider's primary API-key variable when present, and fails with the
missing-variable error naming that variable when absent; there is no
fallback. -/
theorem api_key_spec :
    (∀ (p : LanguageModelProviderName) (env : List (Str × Str)) (v : Str),
        env.lookup p.api_key_name = some v → p.api_key env = Except.ok v) ∧
    (∀ (p : LanguageModelProviderName) (env : List (Str × Str)),
        env.lookup p.api_key_name = none →
          p.api_key env = Except.error (RunnerError.missingEnvVar p.api_key_name)) := by
  constructor
  · intro p env v h
    simp [LanguageModelProviderName.api_key, h]
  · intro p env h
    simp [LanguageModelProviderName.api_key, h]

theorem api_key_spec_witness :
    LanguageModelProviderName.openai.api_key
        [("OPENAI_API_KEY".toList, "sk-test".toList)] = Except.ok "sk-test".toList ∧
    LanguageModelProviderName.openai.api_key []
        = Except.error (RunnerError.missingEnvVar "OPENAI_API_KEY".toList) :=
  ⟨api_key_spec.1 LanguageModelProviderName.openai _ _ rfl,
   api_key_spec.2 LanguageModelProviderName.openai [] rfl⟩

/-- C8: when the executor map has an entry for every provider identity,
the dispatch phase of LanguageModelRunner::chat_completion never panics; and
whenever an identifier passes parsing and identity resolution but the map
lacks the resolved identity, the dispatch phase panics rather than returning
a user-facing error value. -/
theorem select_executor_total (α : Type) :
    (∀ (models : LanguageModelProviderName → Option α) (s : Str),
        (∀ p, (models p).isSome) →
          select_executor models s ≠ LookupResult.panic) ∧
    (∀ (models : LanguageModelProviderName → Option α) (s tag name : Str)
        (p : LanguageModelProviderName),
        split_model s = Except.ok (tag, name) →
        LanguageModelProviderName.from_str tag = Except.ok p →
        models p = none →
          select_executor models s = LookupResult.panic) := by
  constructor
  · intro models s h
    simp only [select_executor]
    cases hsm : split_model s with
    | error e => simp
    | ok pr =>
      obtain ⟨tag, name⟩ := pr
      cases hfs : LanguageModelProviderName.from_str tag with
      | error e => simp [hfs]
      | ok p =>
        cases hm : models p with
        | none =>
          have hp := h p
          rw [hm] at hp
          simp at hp
        | some ex => simp [hfs, hm]
  · intro models s tag name p hsm hfs hm
    simp [select_executor, hsm, hfs, hm]

theorem select_executor_total_witness :
    select_executor (fun _ => some (0 : ℕ)) "openai:gpt-4".toList
        ≠ LookupResult.panic ∧
    select_executor (α := ℕ) (fun _ => none) "openai:gpt-4".toList
        = LookupResult.panic :=
  ⟨(select_executor_total ℕ).1 (fun _ => some 0) "openai:gpt-4".toList
     (fun _ => rfl),
   (select_executor_total ℕ).2 (fun _ => none) "openai:gpt-4".toList
     "openai".toList "gpt-4".toList LanguageModelProviderName.openai
     rfl rfl rfl⟩

theorem deliver_stream_map_chunk {χ ρ ε : Type} (sink : List χ)
    (chunks : List χ) (evs : List (StreamEvent χ ρ ε)) :
    deliver_stream sink (chunks.map .chunk ++ evs)
      = deliver_stream (sink ++ chunks) evs := by
  induction chunks generalizing sink with
  | nil => simp
  | cons c cs ih =>
    simp only [List.map_cons, List.cons_append, deliver_stream, List.append_eq,
      ih, List.append_assoc, List.singleton_append, List.nil_append]

/-- C9: a streaming call whose backend emits a sequence of chunks followed by
a final summary delivers exactly those chunks to the sink, in emission order,
and returns the successful completion; a backend that errors after the same
chunks delivers exactly those chunks and returns the error, never a further
chunk.  In particular this holds for three chunks then a summary, and for an
error after two chunks. -/
theorem deliver_stream_order (χ ρ ε : Type) (chunks : List χ) (r : ρ) (e : ε)
    (rest : List (StreamEvent χ ρ ε)) :
    deliver_stream []
        (chunks.map StreamEvent.chunk ++ [(StreamEvent.done r : StreamEvent χ ρ ε)])
        = (chunks, some (Except.ok r)) ∧
    deliver_stream [] (chunks.map StreamEvent.chunk ++ StreamEvent.fail e :: rest)
        = (chunks, some (Except.error e)) := by
  constructor <;> rw [deliver_stream_map_chunk] <;> simp [deliver_stream]

end Lmnr
